import Mathlib

/-!
Verification of the balance-analysis extraction service
(`src/services/balance_analysis/balance_analysis.py`).

The Python service is shallowly embedded: pure string manipulation becomes
Lean functions on `String`/`List Char`, the PDF document becomes a list of
pages (each page carrying its detected tables and its extracted text),
spreadsheet writes become an emitted list of write operations, and Python
exceptions become `Option`/`Except` results.  Python floats are modelled as
rationals (`ℚ`): every currency string handled by the service denotes a
decimal number, which `ℚ` represents exactly.
-/

namespace BalanceAnalysis

/-! ### Python `str.strip` model

Python `str.strip()` removes leading and trailing whitespace.  We model the
ASCII whitespace characters (space, tab, newline, carriage return, vertical
tab, form feed), which is what `\s` matches on the texts this service
handles. -/

def isPyWs (c : Char) : Bool :=
  c == ' ' || c == '\t' || c == '\n' || c == '\r' || c == '\x0b' || c == '\x0c'

def pyStrip (cs : List Char) : List Char :=
  ((cs.dropWhile isPyWs).reverse.dropWhile isPyWs).reverse

def pyStripStr (s : String) : String :=
  String.mk (pyStrip s.data)

/-! ### Text normalizer (`normalize_text`)

Python: `unicodedata.normalize('NFD', text)`, drop combining marks, then
`.lower()`.  For precomposed Latin characters this is exactly "replace the
accented character by its base letter, then lower-case".  We embed that as a
character map covering the Latin-1 accented range (all characters this
repository's documents and labels use); standalone combining marks and
non-Latin scripts are outside the model. -/

def charMap (table : List (Char × Char)) (c : Char) : Char :=
  match table.find? (fun p => p.1 == c) with
  | some p => p.2
  | none => c

def accentPairs : List (Char × Char) :=
  [('À', 'A'), ('Á', 'A'), ('Â', 'A'), ('Ã', 'A'), ('Ä', 'A'), ('Å', 'A'),
   ('È', 'E'), ('É', 'E'), ('Ê', 'E'), ('Ë', 'E'),
   ('Ì', 'I'), ('Í', 'I'), ('Î', 'I'), ('Ï', 'I'),
   ('Ò', 'O'), ('Ó', 'O'), ('Ô', 'O'), ('Õ', 'O'), ('Ö', 'O'),
   ('Ù', 'U'), ('Ú', 'U'), ('Û', 'U'), ('Ü', 'U'),
   ('Ç', 'C'), ('Ñ', 'N'), ('Ý', 'Y'),
   ('à', 'a'), ('á', 'a'), ('â', 'a'), ('ã', 'a'), ('ä', 'a'), ('å', 'a'),
   ('è', 'e'), ('é', 'e'), ('ê', 'e'), ('ë', 'e'),
   ('ì', 'i'), ('í', 'i'), ('î', 'i'), ('ï', 'i'),
   ('ò', 'o'), ('ó', 'o'), ('ô', 'o'), ('õ', 'o'), ('ö', 'o'),
   ('ù', 'u'), ('ú', 'u'), ('û', 'u'), ('ü', 'u'),
   ('ç', 'c'), ('ñ', 'n'), ('ý', 'y'), ('ÿ', 'y')]

def lowerPairs : List (Char × Char) :=
  [('A', 'a'), ('B', 'b'), ('C', 'c'), ('D', 'd'), ('E', 'e'), ('F', 'f'),
   ('G', 'g'), ('H', 'h'), ('I', 'i'), ('J', 'j'), ('K', 'k'), ('L', 'l'),
   ('M', 'm'), ('N', 'n'), ('O', 'o'), ('P', 'p'), ('Q', 'q'), ('R', 'r'),
   ('S', 's'), ('T', 't'), ('U', 'u'), ('V', 'v'), ('W', 'w'), ('X', 'x'),
   ('Y', 'y'), ('Z', 'z')]

def stripAccent (c : Char) : Char := charMap accentPairs c

def toLowerChar (c : Char) : Char := charMap lowerPairs c

def normChar (c : Char) : Char := toLowerChar (stripAccent c)

def normalize_text (text : String) : String :=
  if text = "" then ""
  else String.mk (text.data.map normChar)

/-- Python's `normalize_text` also accepts `None` (`if not text: return ''`). -/
def normalize_text_opt (text : Option String) : String :=
  match text with
  | none => ""
  | some s => normalize_text s

/-! ### Currency parser (`parse_currency_str`)

Python
```
s = val_str.strip()
negative = False
if s.startswith('(') and s.endswith(')'):
    negative = True
    s = s[1:-1].strip()
clean = s.replace('.', '').replace(',', '.')
num = float(clean)          # ValueError -> None in the model
return -num if negative else num
```
`float(...)` is modelled by `pyFloatQ`: optional surrounding whitespace,
optional sign, decimal digits with at most one dot.  (Python `float` also
accepts exponents, `inf`/`nan` and digit underscores; those forms never
arise from this service's extracted tokens and are outside the model.) -/

def cleanChars (cs : List Char) : List Char :=
  (cs.filter (fun c => c != '.')).map (fun c => if c = ',' then '.' else c)

def digitsVal (ds : List Char) : ℕ :=
  ds.foldl (fun a c => 10 * a + (c.toNat - 48)) 0

def strictFloatQ (cs : List Char) : Option ℚ :=
  let sr : ℚ × List Char :=
    match cs with
    | '+' :: r => (1, r)
    | '-' :: r => (-1, r)
    | r => (1, r)
  let ip := sr.2.takeWhile Char.isDigit
  let r2 := sr.2.dropWhile Char.isDigit
  match r2 with
  | [] => if ip.isEmpty then none else some (sr.1 * (digitsVal ip : ℚ))
  | '.' :: fp =>
    if fp.all Char.isDigit && !(ip.isEmpty && fp.isEmpty) then
      some (sr.1 * ((digitsVal ip : ℚ) + (digitsVal fp : ℚ) / (10 : ℚ) ^ fp.length))
    else none
  | _ => none

def pyFloatQ (cs : List Char) : Option ℚ :=
  strictFloatQ (pyStrip cs)

def parse_currency_str (val_str : String) : Option ℚ :=
  let s := pyStrip val_str.data
  let negative := s.head? == some '(' && s.getLast? == some ')'
  let s2 := if negative then pyStrip (s.drop 1).dropLast else s
  (pyFloatQ (cleanChars s2)).map (fun n => if negative then -n else n)

/-- The string handed to `float(...)` by `parse_currency_str` (trim, strip a
balanced parenthesis pair, delete dots, turn commas into dots). -/
def currencyTransform (val_str : String) : List Char :=
  let s := pyStrip val_str.data
  let negative := s.head? == some '(' && s.getLast? == some ')'
  let s2 := if negative then pyStrip (s.drop 1).dropLast else s
  cleanChars s2

/-- Modelled from the spec's words (section 4.4), for comparison with
`parse_currency_str`: trim whitespace; if wrapped in parentheses mark
negative and strip them (the spec does not re-trim the inner text); remove
all dots; replace commas by dots; parse as a number; negate if marked. -/
def parseCurrencySpec (val_str : String) : Option ℚ :=
  let s := pyStrip val_str.data
  let negative := s.head? == some '(' && s.getLast? == some ')'
  let s2 := if negative then (s.drop 1).dropLast else s
  (pyFloatQ (cleanChars s2)).map (fun n => if negative then -n else n)

/-! ### Document model

A PDF document is its sequence of pages; a page carries the tables
`pdfplumber` detects (`page.find_tables()` + `table.extract()`, whose cells
are `str` or `None`) and the plain text `page.extract_text()` returns
(`None` is normalised to `''` at every call site, so the model uses
`String`). -/

/-- One extracted table: rows of optional cells, as `table.extract()`
returns them. -/
abbrev Table := List (List (Option String))

structure Page where
  tables : List Table
  text : String

abbrev Document := List Page

/-- First `some` produced by `f` along the list, mirroring a Python loop
that returns on the first hit. -/
def firstSome {α β : Type} (f : α → Option β) : List α → Option β
  | [] => none
  | a :: as =>
    match f a with
    | some b => some b
    | none => firstSome f as

/-! ### Text-fallback pattern

Python: `rf"{re.escape(label_norm)}[^\d]*?([\d\.,()]+)[^\d]*?([\d\.,()]+)"`
with `re.search`.  The pattern is embedded directly with Python's
backtracking priorities: leftmost starting position first; each lazy
`[^\d]*?` takes as few characters as possible; each greedy `[\d.,()]+`
takes as many as possible, giving characters back on failure.  `\d` is an
ASCII digit here (the normalized texts contain no other digits). -/

def isTok (c : Char) : Bool :=
  c.isDigit || c == '.' || c == ',' || c == '(' || c == ')'

/-- Second half of the pattern, `[^\d]*?([\d.,()]+)` at end: skip the fewest
possible non-digits, then the greedy capture takes the maximal token run. -/
def findGroup2 : List Char → Option (List Char)
  | [] => none
  | c :: cs =>
    if isTok c then some (List.takeWhile isTok (c :: cs))
    else if c.isDigit then none   -- unreachable (digits are token chars); the lazy class is [^\d]
    else findGroup2 cs

/-- Matches `[^\d]*?([\d.,()]+)[^\d]*?([\d.,()]+)` and returns group 2.
At the first token run: group 1 greedily takes the whole run and group 2 is
sought after it; if that fails and the run has a second character, group 1
gives one character back and group 2 becomes the run's last character; a
one-character run that is not a digit can instead be consumed by the first
lazy `[^\d]*?`, and the scan continues. -/
def matchAfter : List Char → Option (List Char)
  | [] => none
  | c :: cs =>
    if isTok c then
      let run := List.takeWhile isTok (c :: cs)
      let rest := List.dropWhile isTok (c :: cs)
      match findGroup2 rest with
      | some g => some g
      | none =>
        if 2 ≤ run.length then some [run.getLastD c]
        else if c.isDigit then none
        else matchAfter cs
    else if c.isDigit then none   -- unreachable (digits are token chars)
    else matchAfter cs

/-- `re.search` of the fallback pattern: try every starting position left to
right; a start must carry the literal label, then `matchAfter` decides. -/
def searchPattern (lbl : List Char) : List Char → Option (List Char)
  | [] => none
  | c :: rest =>
    if lbl.isPrefixOf (c :: rest) then
      match matchAfter ((c :: rest).drop lbl.length) with
      | some g => some g
      | none => searchPattern lbl rest
    else searchPattern lbl rest

/-! ### Label-value extractor (`extract_final_balance_by_label`) -/

/-- `[[cell.strip() if cell else '' for cell in r] for r in table.extract()]`
(`None` and `''` both become `''`). -/
def tableCells (t : Table) : List (List String) :=
  t.map (fun r => r.map (fun c => ((c.map pyStripStr).getD (""))))

/-- The row scan: the first data row one of whose cells normalizes to the
label, and whose cell at the header's "saldo final" index is non-empty,
yields that cell; rows whose value cell is empty are skipped. -/
def findRow (labelNorm : String) (idx : Nat) : List (List String) → Option String
  | [] => none
  | row :: rest =>
    if row.any (fun cell => normalize_text cell == labelNorm) then
      let val := row.getD idx ("")
      if val.isEmpty then findRow labelNorm idx rest else some val
    else findRow labelNorm idx rest

/-- One table of the table path: first row is the header; if some header
cell normalizes to "saldo final", scan the data rows at its (first) index. -/
def processTable (labelNorm : String) (t : Table) : Option String :=
  match tableCells t with
  | [] => none
  | header :: dataRows =>
    let low := header.map normalize_text
    match low.findIdx? (fun h => h == "saldo final") with
    | some idx => findRow labelNorm idx dataRows
    | none => none

/-- One page: every table is tried first; only if none returned does the
text fallback run on this page's text. -/
def processPage (labelNorm : String) (pg : Page) : Option String :=
  match firstSome (processTable labelNorm) pg.tables with
  | some v => some v
  | none => (searchPattern labelNorm.data (normalize_text pg.text).data).map String.mk

/-- `extract_final_balance_by_label`; `none` models the trailing
`raise ValueError` (label not found). -/
def extract_final_balance_by_label (doc : Document) (label_text : String) : Option String :=
  firstSome (processPage (normalize_text label_text)) doc

/-! ### Entity name (`extract_entity_name`)

Python: `re.search(r"Entidade:\s*(.+)", text)` per page, then
`m.group(1).strip()`.  `\s*` is greedy (longest whitespace run first, giving
back on failure), `.` matches anything but `'\n'`, `(.+)` is greedy. -/

/-- `(.+)` at the current position: at least one non-newline character,
greedily up to the end of the line. -/
def dotPlus (cs : List Char) : Option (List Char) :=
  match cs with
  | [] => none
  | c :: _ => if c = '\n' then none else some (cs.takeWhile (fun d => d != '\n'))

/-- Greedy `\s*` backtracking: try consuming `k` whitespace characters, from
the longest run down to zero. -/
def entityBacktrack (cs : List Char) : Nat → Option (List Char)
  | 0 => dotPlus cs
  | k + 1 =>
    match dotPlus (cs.drop (k + 1)) with
    | some g => some g
    | none => entityBacktrack cs k

def entityAfter (cs : List Char) : Option (List Char) :=
  entityBacktrack cs (cs.takeWhile isPyWs).length

def entitySearch (marker : List Char) : List Char → Option (List Char)
  | [] => none
  | c :: rest =>
    if marker.isPrefixOf (c :: rest) then
      match entityAfter ((c :: rest).drop marker.length) with
      | some g => some g
      | none => entitySearch marker rest
    else entitySearch marker rest

/-- `extract_entity_name`; `none` models the `raise ValueError`. -/
def extract_entity_name (doc : Document) : Option String :=
  firstSome
    (fun pg => (entitySearch ("Entidade:").data pg.text.data).map (fun g => String.mk (pyStrip g)))
    doc

/-! ### Document classifier (`extract_section_types`) -/

/-- Python `phrase in text` (substring test). -/
def containsSub (phrase text : String) : Bool :=
  decide (phrase.data <:+: text.data)

/-- The set of detected sections, as two membership flags. -/
structure Sections where
  balanco : Bool
  dre : Bool
deriving DecidableEq, Repr

def extract_section_types (doc : Document) : Sections :=
  { balanco := doc.any (fun pg => containsSub ("balanco patrimonial") (normalize_text pg.text))
    dre := doc.any (fun pg =>
      containsSub ("demonstracao de resultado do exercicio") (normalize_text pg.text)) }

/-! ### Spreadsheet writes and section mappers

`update_balance_sheet` opens the workbook, sets one cell, formats it and
saves; the model records the write.  The mappers' `print` error reports are
recorded as a list of failed labels. -/

inductive CellValue where
  | num (q : ℚ)
  | text (s : String)
deriving DecidableEq, Repr

structure WriteOp where
  cell : String
  sheet_name : Option String
  value : CellValue
  is_currency : Bool
deriving DecidableEq, Repr

def update_balance_sheet (cell : String) (sheet_name : Option String)
    (value : CellValue) (is_curr : Bool) : WriteOp :=
  { cell := cell, sheet_name := sheet_name, value := value, is_currency := is_curr }

def balanco_mapping : List (String × Nat) :=
  [("ATIVO", 7),
   ("DISPONÍVEL", 8),
   ("ATIVO CIRCULANTE", 9),
   ("CONTAS A RECEBER", 10),
   ("ESTOQUES", 11),
   ("IMOBILIZADO", 12),
   ("ATIVO NÃO CIRCULANTE", 13),
   ("PASSIVO", 14),
   ("PASSIVO CIRCULANTE", 15),
   ("FORNECEDORES", 16),
   ("SALARIOS E ENCARGOS", 17),
   ("TRIBUTOS A RECOLHER", 18),
   ("EMPRÉSTIMOS E FINANCIAMENTOS", 19),
   ("PASSIVO NÃO CIRCULANTE", 20),
   ("PATRIMONIO LIQUIDO", 21)]

def entityErrMsg : String := "Não foi possível encontrar \x27Entidade:\x27 no PDF."

/-- One `handle_balanco` loop iteration: a successful extraction and parse
appends a currency write, any failure appends the label to the error log and
the loop continues. -/
def balancoStep (doc : Document) (col_letter : String) (sheet_name : Option String)
    (acc : List WriteOp × List String) (e : String × Nat) : List WriteOp × List String :=
  match extract_final_balance_by_label doc e.1 with
  | none => (acc.1, acc.2 ++ [e.1])
  | some val_str =>
    match parse_currency_str val_str with
    | none => (acc.1, acc.2 ++ [e.1])
    | some val_num =>
      (acc.1 ++ [update_balance_sheet (col_letter ++ toString e.2) sheet_name
        (CellValue.num val_num) true], acc.2)

/-- `handle_balanco`: the entity name is extracted first (its `ValueError`
propagates), written to B3 without currency formatting, then every mapping
entry is processed with per-label error recovery. -/
def handle_balanco (doc : Document) (col_letter : String) (sheet_name : Option String) :
    Except String (List WriteOp × List String) :=
  match extract_entity_name doc with
  | none => Except.error entityErrMsg
  | some entity =>
    Except.ok (balanco_mapping.foldl (balancoStep doc col_letter sheet_name)
      ([update_balance_sheet ("B3") sheet_name (CellValue.text entity) false], []))

inductive DreLabels where
  | one (s : String)
  | many (ls : List String)
deriving DecidableEq, Repr

def dre_mapping : List (DreLabels × Nat) :=
  [(DreLabels.many [("RECEITA OPERACIONAL"), ("RECEITA LIQUIDA")], 8),
   (DreLabels.many [("RECEITA OPERACIONAL"), ("RECEITA LIQUIDA")], 9),
   (DreLabels.many [("CUSTOS OPERACIONAIS"), ("CUSTO DAS VENDAS/SERVICOS")], 10),
   (DreLabels.one ("DESPESAS OPERACIONAIS"), 11),
   (DreLabels.one ("DESPESAS FINANCEIRAS"), 14),
   (DreLabels.many [("OUTRAS DESPESAS/RECEITAS"), ("OUTRAS RECEITAS E DESPESAS")], 15),
   (DreLabels.many [("LUCRO (PREJUIZO) LIQUIDO DO EXERCICIO"), ("RESULTADO LIQUIDO")], 17)]

def dreLabelName : DreLabels → String
  | DreLabels.one s => s
  | DreLabels.many ls => String.intercalate (", ") ls

/-- Synonym lists are tried in order; the first successful extraction wins. -/
def firstLabelHit (doc : Document) : List String → Option String
  | [] => none
  | l :: ls =>
    match extract_final_balance_by_label doc l with
    | some v => some v
    | none => firstLabelHit doc ls

def dreStep (doc : Document) (col_letter : String) (sheet_name : Option String)
    (acc : List WriteOp × List String) (e : DreLabels × Nat) : List WriteOp × List String :=
  let found : Option String :=
    match e.1 with
    | DreLabels.one s => extract_final_balance_by_label doc s
    | DreLabels.many ls => firstLabelHit doc ls
  match found with
  | none => (acc.1, acc.2 ++ [dreLabelName e.1])
  | some val_str =>
    match parse_currency_str val_str with
    | none => (acc.1, acc.2 ++ [dreLabelName e.1])
    | some val_num =>
      (acc.1 ++ [update_balance_sheet (col_letter ++ toString e.2) sheet_name
        (CellValue.num val_num) true], acc.2)

/-- `handle_dre`: per-entry error recovery throughout; never raises. -/
def handle_dre (doc : Document) (col_letter : String) (sheet_name : Option String) :
    List WriteOp × List String :=
  dre_mapping.foldl (dreStep doc col_letter sheet_name) ([], [])

/-! ### Orchestrator (`process_balance_analysis_pdf`) -/

structure ProcessResult where
  writes : List WriteOp
  errors : List String
  unrecognized : Bool
deriving DecidableEq, Repr

/-- `process_balance_analysis_pdf`: classify, then run the applicable
mappers in order.  An exception escaping `handle_balanco` propagates, so the
DRE pass only runs if the balance pass did not raise. -/
def process_balance_analysis_pdf (doc : Document)
    (balanco_col_letter dre_col_letter : String) : Except String ProcessResult :=
  let sections := extract_section_types doc
  match
    (if sections.balanco then
      handle_balanco doc balanco_col_letter (some ("COMPARATIVO BALANÇO"))
    else Except.ok ([], [])) with
  | Except.error e => Except.error e
  | Except.ok r1 =>
    let r2 :=
      if sections.dre then handle_dre doc dre_col_letter (some ("DRE e CICLO"))
      else ([], [])
    Except.ok
      { writes := r1.1 ++ r2.1
        errors := r1.2 ++ r2.2
        unrecognized := !sections.balanco && !sections.dre }

/-! ### Helper lemmas: character maps and the normalizer -/

theorem charMap_result (t : List (Char × Char)) (c : Char) :
    charMap t c = c ∨ ∃ p, p ∈ t ∧ charMap t c = p.2 := by
  unfold charMap
  cases h : t.find? (fun p => p.1 == c) with
  | none => exact Or.inl rfl
  | some p => exact Or.inr ⟨p, List.mem_of_find?_eq_some h, rfl⟩

theorem normChar_idem (c : Char) : normChar (normChar c) = normChar c := by
  have hlow : ∀ q ∈ lowerPairs, normChar q.2 = q.2 := by decide
  have hacc : ∀ p ∈ accentPairs, normChar (toLowerChar p.2) = toLowerChar p.2 := by decide
  rcases charMap_result accentPairs c with h1 | ⟨p, hp, h1⟩
  · rcases charMap_result lowerPairs c with h2 | ⟨q, hq, h2⟩
    · have hc : normChar c = c := by
        show toLowerChar (stripAccent c) = c
        rw [show stripAccent c = c from h1]
        exact h2
      rw [hc, hc]
    · have hc : normChar c = q.2 := by
        show toLowerChar (stripAccent c) = q.2
        rw [show stripAccent c = c from h1]
        exact h2
      rw [hc]
      exact hlow q hq
  · have hc : normChar c = toLowerChar p.2 := by
      show toLowerChar (stripAccent c) = toLowerChar p.2
      rw [show stripAccent c = p.2 from h1]
    rw [hc]
    exact hacc p hp

theorem map_normChar_idem (l : List Char) :
    (l.map normChar).map normChar = l.map normChar := by
  rw [List.map_map]
  exact List.map_congr_left (fun a _ => normChar_idem a)

theorem mk_ne_empty {l : List Char} (h : l ≠ []) : String.mk l ≠ "" := by
  intro hc
  exact h (congrArg String.data hc)

theorem normalize_text_ne (s : String) (h : s ≠ "") :
    normalize_text s = String.mk (s.data.map normChar) := by
  unfold normalize_text
  rw [if_neg h]

theorem normalize_text_idem (s : String) :
    normalize_text (normalize_text s) = normalize_text s := by
  by_cases h : s = ""
  · simp [normalize_text, h]
  · have h2 : s.data ≠ [] := by
      intro hc
      apply h
      cases s
      simp_all
    rw [normalize_text_ne s h]
    rw [normalize_text_ne _ (mk_ne_empty (by simp [h2]))]
    show String.mk ((s.data.map normChar).map normChar) = _
    rw [map_normChar_idem]

theorem normalize_data_map (s : String) :
    (normalize_text s).data.map normChar = (normalize_text s).data := by
  by_cases h : s = ""
  · simp [normalize_text, h]
  · rw [normalize_text_ne s h]
    exact map_normChar_idem s.data

/-! ### Helper lemmas: whitespace stripping and the currency transform -/

theorem dropWhile_ws_append (w z : List Char) (hw : ∀ c ∈ w, isPyWs c = true) :
    (w ++ z).dropWhile isPyWs = z.dropWhile isPyWs := by
  induction w with
  | nil => rfl
  | cons c t ih =>
    have hc := hw c (List.mem_cons_self c t)
    simp only [List.cons_append, List.dropWhile_cons, hc, if_true]
    exact ih (fun d hd => hw d (List.mem_cons_of_mem c hd))

theorem dropWhile_ws_all (w : List Char) (hw : ∀ c ∈ w, isPyWs c = true) :
    w.dropWhile isPyWs = [] := by
  have := dropWhile_ws_append w [] hw
  simpa using this

theorem ws_not_dot (c : Char) (h : isPyWs c = true) : c ≠ '.' := by
  simp only [isPyWs, Bool.or_eq_true, beq_iff_eq] at h
  rcases h with ((((h | h) | h) | h) | h) | h <;> subst h <;> decide

theorem ws_not_comma (c : Char) (h : isPyWs c = true) : c ≠ ',' := by
  simp only [isPyWs, Bool.or_eq_true, beq_iff_eq] at h
  rcases h with ((((h | h) | h) | h) | h) | h <;> subst h <;> decide

theorem cleanChars_cons (c : Char) (t : List Char) :
    cleanChars (c :: t) =
      if c = '.' then cleanChars t
      else (if c = ',' then '.' else c) :: cleanChars t := by
  unfold cleanChars
  by_cases h : c = '.'
  · subst h
    simp [List.filter_cons]
  · simp [List.filter_cons, h]

theorem cleanChars_append (x y : List Char) :
    cleanChars (x ++ y) = cleanChars x ++ cleanChars y := by
  unfold cleanChars
  rw [List.filter_append, List.map_append]

theorem cleanChars_ws (w : List Char) (hw : ∀ c ∈ w, isPyWs c = true) :
    cleanChars w = w := by
  induction w with
  | nil => rfl
  | cons c t ih =>
    have hc := hw c (List.mem_cons_self c t)
    rw [cleanChars_cons, if_neg (ws_not_dot c hc), if_neg (ws_not_comma c hc),
      ih (fun d hd => hw d (List.mem_cons_of_mem c hd))]

theorem pyStrip_decomp (x : List Char) :
    ∃ w1 w2, x = w1 ++ pyStrip x ++ w2
      ∧ (∀ c ∈ w1, isPyWs c = true) ∧ (∀ c ∈ w2, isPyWs c = true) := by
  refine ⟨x.takeWhile isPyWs, ((x.dropWhile isPyWs).reverse.takeWhile isPyWs).reverse, ?_, ?_, ?_⟩
  · conv_lhs => rw [← List.takeWhile_append_dropWhile (p := isPyWs) (l := x)]
    rw [List.append_assoc]
    congr 1
    unfold pyStrip
    conv_lhs =>
      rw [← List.reverse_reverse (x.dropWhile isPyWs),
        ← List.takeWhile_append_dropWhile (p := isPyWs) (l := (x.dropWhile isPyWs).reverse)]
    rw [List.reverse_append]
  · exact fun c hc => List.mem_takeWhile_imp hc
  · intro c hc
    rw [List.mem_reverse] at hc
    exact List.mem_takeWhile_imp hc

theorem pyStrip_affix (w1 z w2 : List Char) (h1 : ∀ c ∈ w1, isPyWs c = true)
    (h2 : ∀ c ∈ w2, isPyWs c = true) : pyStrip (w1 ++ z ++ w2) = pyStrip z := by
  unfold pyStrip
  rw [List.append_assoc, dropWhile_ws_append w1 (z ++ w2) h1, List.dropWhile_append]
  by_cases hz : (z.dropWhile isPyWs).isEmpty
  · rw [if_pos hz]
    rw [List.isEmpty_iff] at hz
    rw [dropWhile_ws_all w2 h2, hz]
  · rw [if_neg hz]
    rw [List.reverse_append,
      dropWhile_ws_append w2.reverse _ (fun c hc => h2 c (List.mem_reverse.mp hc))]

theorem pyStrip_clean_pyStrip (x : List Char) :
    pyStrip (cleanChars (pyStrip x)) = pyStrip (cleanChars x) := by
  obtain ⟨w1, w2, hx, h1, h2⟩ := pyStrip_decomp x
  conv_rhs => rw [hx]
  rw [cleanChars_append, cleanChars_append, cleanChars_ws w1 h1, cleanChars_ws w2 h2,
    pyStrip_affix w1 _ w2 h1 h2]

/-! ### Claims about the normalizer and the currency parser -/

/-- Claim C8: the text normalizer is idempotent on every string, identifies
case and accent variants (normalize("SALÁRIOS") = normalize("salarios")),
and maps empty as well as missing input to the empty string without
failing. -/
theorem C8_normalizer_idem_case_accent_insensitive :
    (∀ s : String, normalize_text (normalize_text s) = normalize_text s)
    ∧ normalize_text ("SALÁRIOS") = normalize_text ("salarios")
    ∧ normalize_text ("") = ("")
    ∧ normalize_text_opt none = ("") :=
  ⟨normalize_text_idem, by decide, rfl, rfl⟩

/-- Claim C5: parse_currency_str applies, in order: trim; strip a wrapping
parenthesis pair, marking the sign negative; delete all dots; replace the
comma by a dot; parse the number; negate if marked — exactly the pipeline
the spec describes (parseCurrencySpec).  In particular
parse("1.234.567,89") = 1234567.89 and parse("(500,00)") = -500.00. -/
theorem C5_parse_currency_pipeline :
    (∀ s : String, parse_currency_str s = parseCurrencySpec s)
    ∧ parse_currency_str ("1.234.567,89") = some ((123456789 : ℚ) / 100)
    ∧ parse_currency_str ("(500,00)") = some (-500) := by
  refine ⟨fun s => ?_, ?_, ?_⟩
  · unfold parse_currency_str parseCurrencySpec pyFloatQ
    by_cases h : ((pyStrip s.data).head? == some '(' && (pyStrip s.data).getLast? == some ')') = true
    · simp only [h, if_true]
      rw [pyStrip_clean_pyStrip]
    · simp only [Bool.not_eq_true] at h
      simp [h]
  · rw [show parse_currency_str ("1.234.567,89")
        = some ((1 : ℚ) * ((digitsVal ("1234567").data : ℚ)
            + (digitsVal ("89").data : ℚ) / (10 : ℚ) ^ (("89").data).length)) from rfl]
    norm_num [show (digitsVal ("1234567").data) = 1234567 from rfl,
      show (digitsVal ("89").data) = 89 from rfl]
  · rw [show parse_currency_str ("(500,00)")
        = some (-((1 : ℚ) * ((digitsVal ("500").data : ℚ)
            + (digitsVal ("00").data : ℚ) / (10 : ℚ) ^ (("00").data).length))) from rfl]
    norm_num [show (digitsVal ("500").data) = 500 from rfl,
      show (digitsVal ("00").data) = 0 from rfl]

/-- Claim C6: parse_currency_str fails exactly when the transformed string
(trimmed, paren-stripped, dots removed, comma turned into a dot) is not a
valid number; in particular it fails on the unbalanced "(500,00" and on the
multi-comma "1,2,3" instead of returning a truncated value. -/
theorem C6_parse_currency_failure_condition :
    (∀ s : String, parse_currency_str s = none ↔ pyFloatQ (currencyTransform s) = none)
    ∧ parse_currency_str ("(500,00") = none
    ∧ parse_currency_str ("1,2,3") = none := by
  refine ⟨fun s => ?_, rfl, rfl⟩
  unfold parse_currency_str currencyTransform
  simp only [Option.map_eq_none']

/-! ### Helper lemmas: the extractor -/

theorem firstSome_singleton {α β : Type} (f : α → Option β) (a : α) :
    firstSome f [a] = f a := by
  cases h : f a <;> simp [firstSome, h]

theorem firstSome_eq_none {α β : Type} (f : α → Option β) (l : List α)
    (h : ∀ a ∈ l, f a = none) : firstSome f l = none := by
  induction l with
  | nil => rfl
  | cons a t ih =>
    simp [firstSome, h a (List.mem_cons_self a t),
      ih (fun x hx => h x (List.mem_cons_of_mem a hx))]

theorem notTok_notDigit (c : Char) (h : isTok c = false) : c.isDigit = false := by
  unfold isTok at h
  simp only [Bool.or_eq_false_iff] at h
  exact h.1.1.1.1

theorem matchAfter_skip (s1 rest : List Char) (h : ∀ c ∈ s1, isTok c = false) :
    matchAfter (s1 ++ rest) = matchAfter rest := by
  induction s1 with
  | nil => rfl
  | cons c t ih =>
    have hc := h c (List.mem_cons_self c t)
    have hd := notTok_notDigit c hc
    simp only [List.cons_append, matchAfter, hc, hd, Bool.false_eq_true, if_false]
    exact ih (fun d hdm => h d (List.mem_cons_of_mem c hdm))

theorem findGroup2_skip (s2 rest : List Char) (h : ∀ c ∈ s2, isTok c = false) :
    findGroup2 (s2 ++ rest) = findGroup2 rest := by
  induction s2 with
  | nil => rfl
  | cons c t ih =>
    have hc := h c (List.mem_cons_self c t)
    have hd := notTok_notDigit c hc
    simp only [List.cons_append, findGroup2, hc, hd, Bool.false_eq_true, if_false]
    exact ih (fun d hdm => h d (List.mem_cons_of_mem c hdm))

theorem takeWhile_tok_append (a r : List Char) (ha : ∀ c ∈ a, isTok c = true) :
    (a ++ r).takeWhile isTok = a ++ r.takeWhile isTok := by
  induction a with
  | nil => rfl
  | cons c t ih =>
    simp only [List.cons_append, List.takeWhile_cons, ha c (List.mem_cons_self c t), if_true]
    rw [ih (fun d hd => ha d (List.mem_cons_of_mem c hd))]

theorem dropWhile_tok_append (a r : List Char) (ha : ∀ c ∈ a, isTok c = true) :
    (a ++ r).dropWhile isTok = r.dropWhile isTok := by
  induction a with
  | nil => rfl
  | cons c t ih =>
    simp only [List.cons_append, List.dropWhile_cons, ha c (List.mem_cons_self c t), if_true]
    exact ih (fun d hd => ha d (List.mem_cons_of_mem c hd))

theorem takeWhile_tok_all (b : List Char) (hb : ∀ c ∈ b, isTok c = true) :
    b.takeWhile isTok = b := by
  have := takeWhile_tok_append b [] hb
  simpa using this

theorem findGroup2_run (s2 b : List Char) (hs2 : ∀ c ∈ s2, isTok c = false)
    (hb : b ≠ []) (hb2 : ∀ c ∈ b, isTok c = true) :
    findGroup2 (s2 ++ b) = some b := by
  rw [findGroup2_skip s2 b hs2]
  obtain ⟨e, v, rfl⟩ := List.exists_cons_of_ne_nil hb
  simp only [findGroup2, hb2 e (List.mem_cons_self e v), if_true]
  rw [takeWhile_tok_all _ hb2]

theorem matchAfter_two_runs (a s2 b : List Char)
    (ha : a ≠ []) (ha2 : ∀ c ∈ a, isTok c = true)
    (hs : s2 ≠ []) (hs2 : ∀ c ∈ s2, isTok c = false)
    (hb : b ≠ []) (hb2 : ∀ c ∈ b, isTok c = true) :
    matchAfter (a ++ (s2 ++ b)) = some b := by
  obtain ⟨c, t, rfl⟩ := List.exists_cons_of_ne_nil ha
  obtain ⟨d, u, rfl⟩ := List.exists_cons_of_ne_nil hs
  have hc : isTok c = true := ha2 c (List.mem_cons_self c t)
  have hdrop : ((c :: t) ++ ((d :: u) ++ b)).dropWhile isTok = (d :: u) ++ b := by
    rw [dropWhile_tok_append _ _ ha2]
    simp only [List.cons_append, List.dropWhile_cons,
      hs2 d (List.mem_cons_self d u), Bool.false_eq_true, if_false]
  have hfind : findGroup2 (((c :: t) ++ ((d :: u) ++ b)).dropWhile isTok) = some b := by
    rw [hdrop]
    exact findGroup2_run (d :: u) b hs2 hb hb2
  simp only [List.cons_append] at hfind ⊢
  simp only [matchAfter, hc, if_true, hfind]

theorem searchPattern_here (lbl rest g : List Char)
    (h : matchAfter rest = some g) (hne : lbl ++ rest ≠ []) :
    searchPattern lbl (lbl ++ rest) = some g := by
  have hpre : lbl.isPrefixOf (lbl ++ rest) = true := by
    rw [List.isPrefixOf_iff_prefix]
    exact List.prefix_append lbl rest
  have hdrop : (lbl ++ rest).drop lbl.length = rest := List.drop_left lbl rest
  cases hl : lbl ++ rest with
  | nil => exact absurd hl hne
  | cons c t =>
    rw [hl] at hpre hdrop
    simp only [searchPattern, hpre, if_true, hdrop, h]

theorem normalize_append_normalized (label : String) (rest : List Char)
    (hrest : ∀ c ∈ rest, normChar c = c) (hne : rest ≠ []) :
    (normalize_text (String.mk ((normalize_text label).data ++ rest))).data
      = (normalize_text label).data ++ rest := by
  have hne2 : (normalize_text label).data ++ rest ≠ [] := by
    intro hc
    exact hne (List.append_eq_nil.mp hc).2
  rw [normalize_text_ne _ (mk_ne_empty hne2)]
  show ((normalize_text label).data ++ rest).map normChar = _
  rw [List.map_append, normalize_data_map,
    List.map_congr_left (fun c hc => hrest c hc), List.map_id']

/-! ### Helper lemmas: the table path -/

/-- Embeds an already-stripped string table as `table.extract()` output. -/
def strTable (rows : List (List String)) : Table :=
  rows.map (fun r => r.map some)

theorem tableCells_strTable (rows : List (List String))
    (hclean : ∀ r ∈ rows, ∀ s ∈ r, pyStripStr s = s) :
    tableCells (strTable rows) = rows := by
  unfold tableCells strTable
  rw [List.map_map]
  have houter : ∀ r ∈ rows,
      ((fun r : List (Option String) => r.map (fun c : Option String => ((c.map pyStripStr).getD ("")))) ∘
        (fun r : List String => r.map some)) r = r := by
    intro r hr
    simp only [Function.comp_apply, List.map_map]
    have hinner : ∀ s ∈ r,
        ((fun c : Option String => ((c.map pyStripStr).getD (""))) ∘ some) s = s := by
      intro s hs
      simp [hclean r hr s hs]
    rw [List.map_congr_left hinner, List.map_id']
  rw [List.map_congr_left houter, List.map_id']

theorem findRow_eq_find (lab : String) (i : Nat) (rows : List (List String)) :
    findRow lab i rows =
      (rows.find? (fun r =>
        r.any (fun cell => normalize_text cell == lab) && !(r.getD i ("")).isEmpty)).map
        (fun r => r.getD i ("")) := by
  induction rows with
  | nil => rfl
  | cons r rest ih =>
    cases hm : r.any (fun cell => normalize_text cell == lab) with
    | false =>
      rw [List.find?_cons_of_neg _ (by simp only [hm, Bool.false_and]; exact Bool.false_ne_true)]
      simp only [findRow, hm, Bool.false_eq_true, if_false]
      exact ih
    | true =>
      cases hv : (r.getD i ("")).isEmpty with
      | true =>
        rw [List.find?_cons_of_neg _
          (by simp only [hm, hv, Bool.true_and, Bool.not_true]; exact Bool.false_ne_true)]
        simp only [findRow, hm, if_true, hv]
        exact ih
      | false =>
        rw [List.find?_cons_of_pos _ (by simp only [hm, hv, Bool.true_and, Bool.not_false])]
        simp only [findRow, hm, if_true, hv, Bool.false_eq_true, if_false, Option.map_some']

theorem extract_single_table_page (t : Table) (label : String) :
    extract_final_balance_by_label [⟨[t], ""⟩] label
      = processTable (normalize_text label) t := by
  unfold extract_final_balance_by_label
  rw [firstSome_singleton]
  show (match firstSome (processTable (normalize_text label)) [t] with
    | some v => some v
    | none => (searchPattern (normalize_text label).data
        (normalize_text ("")).data).map String.mk) = _
  rw [firstSome_singleton]
  cases h : processTable (normalize_text label) t with
  | some v => simp [h]
  | none =>
    simp only [h]
    rfl

/-! ### The claims about the extractor -/

/-- Claim C4: on the table path, a header whose first cell normalizing to
"saldo final" sits at index i makes the extractor return the cell at i of
the first data row that has a cell normalizing to the label and a non-empty
cell at i; rows whose value cell is empty are skipped and the scan goes on.
The right-hand side is exactly that first-match-with-non-empty-value
characterization. -/
theorem C4_table_path_first_nonempty_row (header : List String) (rows : List (List String))
    (label : String) (i : Nat)
    (hh : (header.map normalize_text).findIdx? (fun h => h == ("saldo final")) = some i)
    (hclean : ∀ r ∈ header :: rows, ∀ s ∈ r, pyStripStr s = s) :
    extract_final_balance_by_label [⟨[strTable (header :: rows)], ""⟩] label
      = (rows.find? (fun r =>
          r.any (fun cell => normalize_text cell == normalize_text label)
            && !(r.getD i ("")).isEmpty)).map (fun r => r.getD i ("")) := by
  rw [extract_single_table_page]
  have h0 : processTable (normalize_text label) (strTable (header :: rows)) =
      match (header.map normalize_text).findIdx? (fun h => h == ("saldo final")) with
      | some idx => findRow (normalize_text label) idx rows
      | none => none := by
    unfold processTable
    rw [tableCells_strTable _ hclean]
  rw [h0, hh]
  exact findRow_eq_find _ i rows

/-- Claim C1: when every table fails for the label and the page's normalized
text is the normalized label followed by two runs of numeric-token
characters (digits, dots, commas, parentheses) separated by non-token text,
the extractor returns the second run — not the first.  The witness
instantiates this at the spec's example "Ativo 100,00 150,00". -/
theorem C1_text_fallback_second_token (tables : List Table) (label : String)
    (s1 a s2 b : List Char)
    (ht : ∀ t ∈ tables, processTable (normalize_text label) t = none)
    (hs1 : ∀ c ∈ s1, isTok c = false)
    (ha : a ≠ []) (ha2 : ∀ c ∈ a, isTok c = true)
    (hs : s2 ≠ []) (hs2 : ∀ c ∈ s2, isTok c = false)
    (hb : b ≠ []) (hb2 : ∀ c ∈ b, isTok c = true)
    (hfix : ∀ c ∈ s1 ++ (a ++ (s2 ++ b)), normChar c = c) :
    extract_final_balance_by_label
      [⟨tables, String.mk ((normalize_text label).data ++ (s1 ++ (a ++ (s2 ++ b))))⟩] label
      = some (String.mk b) := by
  have hrest_ne : s1 ++ (a ++ (s2 ++ b)) ≠ [] := by
    intro hc
    exact ha (List.append_eq_nil.mp (List.append_eq_nil.mp hc).2).1
  unfold extract_final_balance_by_label
  rw [firstSome_singleton]
  show (match firstSome (processTable (normalize_text label)) tables with
    | some v => some v
    | none => (searchPattern (normalize_text label).data
        (normalize_text (String.mk ((normalize_text label).data
          ++ (s1 ++ (a ++ (s2 ++ b)))))).data).map String.mk) = _
  rw [firstSome_eq_none _ _ ht]
  rw [normalize_append_normalized label _ hfix hrest_ne]
  rw [searchPattern_here _ _ b ?_ ?_]
  · rfl
  · rw [matchAfter_skip s1 _ hs1]
    exact matchAfter_two_runs a s2 b ha ha2 hs hs2 hb hb2
  · intro hc
    exact hrest_ne (List.append_eq_nil.mp hc).2

/-- Claim C2 (amended): a table match takes precedence over the text
fallback only on the same page; across pages the first page that produces
any result wins, so when every page before `pg` yields nothing and one of
`pg`'s tables matches, that table cell is returned even if `pg`'s own text
would also match the fallback pattern. -/
theorem C2_amended_table_beats_text_same_page (pre : List Page) (pg : Page) (rest : List Page)
    (label v : String)
    (hpre : ∀ q ∈ pre, processPage (normalize_text label) q = none)
    (htab : firstSome (processTable (normalize_text label)) pg.tables = some v) :
    extract_final_balance_by_label (pre ++ pg :: rest) label = some v := by
  unfold extract_final_balance_by_label
  induction pre with
  | nil =>
    simp only [List.nil_append, firstSome]
    simp [processPage, htab]
  | cons q t ih =>
    simp only [List.cons_append, firstSome, hpre q (List.mem_cons_self q t)]
    exact ih (fun x hx => hpre x (List.mem_cons_of_mem q hx))

/-! ### Concrete documents for witnesses and counterexamples -/

/-- One text-only page "Ativo 100,00 150,00" from the spec's example. -/
def docTextOnly : Document := [⟨[], "Ativo 100,00 150,00"⟩]

/-- Page 1 matches the text fallback; page 2 has a table whose header has a
"saldo final" column and whose data row matches the label with a non-empty
value. -/
def docTextThenTable : Document :=
  [⟨[], "Ativo 100,00 150,00"⟩,
   ⟨[[[some ("Conta"), some ("Saldo Final")], [some ("ATIVO"), some ("999,99")]]], ""⟩]

/-- A single page whose table matches the label and whose own text also
matches the fallback pattern. -/
def pgTableAndText : Page :=
  ⟨[[[some ("Conta"), some ("Saldo Final")], [some ("ATIVO"), some ("150,00")]]],
   "Ativo 1,00 2,00"⟩

/-- The first occurrence of "ativo" in this page's normalized text is inside
the longer label "ativo circulante"; the "ATIVO" line itself comes later. -/
def docSubstringTrap : Document :=
  [⟨[], "Ativo Circulante 10,00 20,00 Ativo 30,00 40,00"⟩]

/-- Claim C1 witness. -/
theorem C1_text_fallback_witness :
    extract_final_balance_by_label
      [⟨[], String.mk ((normalize_text ("ATIVO")).data
        ++ ((" ").data ++ (("100,00").data ++ ((" ").data ++ ("150,00").data))))⟩]
      ("ATIVO") = some (String.mk ("150,00").data)
    ∧ extract_final_balance_by_label docTextOnly ("ATIVO") = some ("150,00") :=
  ⟨C1_text_fallback_second_token [] ("ATIVO") (" ").data ("100,00").data (" ").data
      ("150,00").data (by decide) (by decide) (by decide) (by decide) (by decide)
      (by decide) (by decide) (by decide) (by decide),
   by decide⟩

/-- Claim C2 counterexample: page 2's table matches the label "ATIVO" with
the non-empty "saldo final" cell "999,99", yet the extractor returns page
1's text-fallback token "150,00" — the text fallback is not reserved for
documents where the table path matched on no page. -/
theorem C2_counterexample_text_page_beats_table_page :
    processTable (normalize_text ("ATIVO"))
        [[some ("Conta"), some ("Saldo Final")], [some ("ATIVO"), some ("999,99")]]
      = some ("999,99")
    ∧ extract_final_balance_by_label docTextThenTable ("ATIVO") = some ("150,00")
    ∧ ("150,00" : String) ≠ ("999,99" : String) :=
  ⟨by decide, by decide, by decide⟩

/-- Claim C2 (amended) witness: within one page the table wins over that
page's own matching text. -/
theorem C2_amended_witness :
    firstSome (processTable (normalize_text ("ATIVO"))) pgTableAndText.tables
      = some ("150,00")
    ∧ extract_final_balance_by_label ([] ++ pgTableAndText :: []) ("ATIVO")
      = some ("150,00") :=
  ⟨by decide,
   C2_amended_table_beats_text_same_page [] pgTableAndText [] ("ATIVO") ("150,00")
     (by decide) (by decide)⟩

/-- Claim C4 witness: header ["Conta","Saldo Inicial","Saldo Final"], row
["ATIVO","100,00","150,00"] yields "150,00". -/
theorem C4_table_path_witness :
    ((["Conta", "Saldo Inicial", "Saldo Final"].map normalize_text).findIdx?
        (fun h => h == ("saldo final")) = some 2)
    ∧ extract_final_balance_by_label
        [⟨[strTable ([["Conta", "Saldo Inicial", "Saldo Final"],
            ["ATIVO", "100,00", "150,00"]])], ""⟩] ("ATIVO")
      = some ("150,00") := by
  refine ⟨by decide, ?_⟩
  rw [C4_table_path_first_nonempty_row (["Conta", "Saldo Inicial", "Saldo Final"])
    ([["ATIVO", "100,00", "150,00"]]) ("ATIVO") 2 (by decide) (by decide)]
  decide

/-- Claim C10: the fallback matches the label as an unanchored substring of
the page text: with "Ativo Circulante 10,00 20,00 Ativo 30,00 40,00",
extracting "ATIVO" hits the occurrence inside "Ativo Circulante" and
returns "20,00" — the second token of that longer line item — rather than
"40,00" from the "Ativo" line itself. -/
theorem C10_unanchored_substring_match :
    extract_final_balance_by_label docSubstringTrap ("ATIVO") = some ("20,00")
    ∧ extract_final_balance_by_label docSubstringTrap ("ATIVO CIRCULANTE") = some ("20,00")
    ∧ ("20,00" : String) ≠ ("40,00" : String) :=
  ⟨by decide, by decide, by decide⟩

/-! ### Helper lemmas: the mappers and the orchestrator -/

theorem balancoStep_count (doc : Document) (cp : String) (sn : Option String)
    (acc : List WriteOp × List String) (e : String × Nat) :
    ((balancoStep doc cp sn acc e).1.filter (fun o => o.is_currency)).length
      + (balancoStep doc cp sn acc e).2.length
    = (acc.1.filter (fun o => o.is_currency)).length + acc.2.length + 1 := by
  unfold balancoStep
  cases hx : extract_final_balance_by_label doc e.1 with
  | none =>
    simp
    omega
  | some v =>
    cases hp : parse_currency_str v with
    | none =>
      simp [hp]
      omega
    | some q =>
      simp [hp, update_balance_sheet]
      omega

theorem balanco_fold_count (doc : Document) (cp : String) (sn : Option String)
    (l : List (String × Nat)) (acc : List WriteOp × List String) :
    ((l.foldl (balancoStep doc cp sn) acc).1.filter (fun o => o.is_currency)).length
      + (l.foldl (balancoStep doc cp sn) acc).2.length
    = (acc.1.filter (fun o => o.is_currency)).length + acc.2.length + l.length := by
  induction l generalizing acc with
  | nil => simp
  | cons e t ih =>
    rw [List.foldl_cons, ih, balancoStep_count]
    simp only [List.length_cons]
    omega

/-! ### Claims about the mappers and the orchestrator -/

/-- Claim C7: a failed extraction or parse of one balance-sheet label is
recorded and the loop continues: whenever the entity name is found, the
mapper finishes with an `ok` result in which every one of the 15 mapping
entries contributed either one currency cell write or one recorded error. -/
theorem C7_balanco_failures_recorded_and_continue (doc : Document) (cp : String)
    (sn : Option String) (he : extract_entity_name doc ≠ none) :
    ∃ w errs, handle_balanco doc cp sn = Except.ok (w, errs)
      ∧ (w.filter (fun o => o.is_currency)).length + errs.length = balanco_mapping.length := by
  cases h : extract_entity_name doc with
  | none => exact absurd h he
  | some entity =>
    have hh : handle_balanco doc cp sn
        = Except.ok (balanco_mapping.foldl (balancoStep doc cp sn)
            ([update_balance_sheet ("B3") sn (CellValue.text entity) false], [])) := by
      unfold handle_balanco
      rw [h]
    refine ⟨(balanco_mapping.foldl (balancoStep doc cp sn)
        ([update_balance_sheet ("B3") sn (CellValue.text entity) false], [])).1,
      (balanco_mapping.foldl (balancoStep doc cp sn)
        ([update_balance_sheet ("B3") sn (CellValue.text entity) false], [])).2, ?_, ?_⟩
    · rw [hh]
    · rw [balanco_fold_count]
      simp [update_balance_sheet]

/-- Claim C3 (amended): a missing "Entidade:" marker aborts the whole
document: when the balance-sheet section is present and the marker is
absent, the error propagates out of the orchestrator and the
income-statement mapper never runs. -/
theorem C3_amended_entity_missing_aborts_document (doc : Document) (b d : String)
    (hb : (extract_section_types doc).balanco = true)
    (he : extract_entity_name doc = none) :
    process_balance_analysis_pdf doc b d = Except.error entityErrMsg := by
  unfold process_balance_analysis_pdf handle_balanco
  simp [hb, he]

/-- Claim C9: when no page's normalized text contains either canonical
section phrase, the classifier returns the empty section set and the
orchestrator performs no writes, records no errors, and reports (does not
raise) the unrecognized-section case. -/
theorem C9_no_sections_no_mappers (doc : Document) (b d : String)
    (h : ∀ pg ∈ doc,
      containsSub ("balanco patrimonial") (normalize_text pg.text) = false
      ∧ containsSub ("demonstracao de resultado do exercicio") (normalize_text pg.text) = false) :
    extract_section_types doc = ⟨false, false⟩
    ∧ process_balance_analysis_pdf doc b d = Except.ok ⟨[], [], true⟩ := by
  have hs : extract_section_types doc = ⟨false, false⟩ := by
    unfold extract_section_types
    have h1 : doc.any
        (fun pg => containsSub ("balanco patrimonial") (normalize_text pg.text)) = false :=
      List.any_eq_false.mpr (fun pg hpg => by simp [(h pg hpg).1])
    have h2 : doc.any
        (fun pg => containsSub ("demonstracao de resultado do exercicio")
          (normalize_text pg.text)) = false :=
      List.any_eq_false.mpr (fun pg hpg => by simp [(h pg hpg).2])
    rw [h1, h2]
  refine ⟨hs, ?_⟩
  unfold process_balance_analysis_pdf
  rw [hs]
  rfl

/-! ### Concrete documents for the mapper claims -/

/-- Both section phrases and an extractable DRE label, but no "Entidade:"
marker anywhere. -/
def docBothSectionsNoEntity : Document :=
  [⟨[], "Balanço Patrimonial\nDemonstração de Resultado do Exercício\nDespesas Operacionais 10,00 20,00"⟩]

/-- A balance-sheet table carrying 12 of the 15 mapped labels (ESTOQUES,
FORNECEDORES and PATRIMONIO LIQUIDO are absent) plus the entity marker. -/
def docBalancoTwelve : Document :=
  [⟨[strTable ([["Conta", "Saldo Final"],
      ["ATIVO", "1,00"], ["DISPONÍVEL", "2,00"], ["ATIVO CIRCULANTE", "3,00"],
      ["CONTAS A RECEBER", "4,00"], ["IMOBILIZADO", "5,00"], ["ATIVO NÃO CIRCULANTE", "6,00"],
      ["PASSIVO", "7,00"], ["PASSIVO CIRCULANTE", "8,00"], ["SALARIOS E ENCARGOS", "9,00"],
      ["TRIBUTOS A RECOLHER", "10,00"], ["EMPRÉSTIMOS E FINANCIAMENTOS", "11,00"],
      ["PASSIVO NÃO CIRCULANTE", "12,00"]])], "Entidade: Empresa Exemplo"⟩]

/-- A page matching neither canonical section phrase. -/
def docNoSections : Document := [⟨[], "relatorio generico 123"⟩]

/-- Claim C3 counterexample: the document carries both sections, a DRE label
extraction would succeed, yet with the entity marker absent the whole run
ends in the entity error — no income-statement write happens. -/
theorem C3_counterexample_dre_does_not_run :
    extract_section_types docBothSectionsNoEntity = ⟨true, true⟩
    ∧ extract_entity_name docBothSectionsNoEntity = none
    ∧ extract_final_balance_by_label docBothSectionsNoEntity ("DESPESAS OPERACIONAIS")
      = some ("20,00")
    ∧ process_balance_analysis_pdf docBothSectionsNoEntity ("B") ("D")
      = Except.error entityErrMsg :=
  ⟨by decide, by decide, by decide, by rfl⟩

/-- Claim C3 (amended) witness. -/
theorem C3_amended_witness :
    (extract_section_types docBothSectionsNoEntity).balanco = true
    ∧ process_balance_analysis_pdf docBothSectionsNoEntity ("B") ("D")
      = Except.error entityErrMsg :=
  ⟨by decide,
   C3_amended_entity_missing_aborts_document docBothSectionsNoEntity ("B") ("D")
     (by decide) (by decide)⟩

/-- Claim C7 witness: 3 of the 15 labels are absent, and the run ends with
exactly 12 currency cell writes and 3 recorded errors. -/
theorem C7_balanco_witness :
    (∃ w errs, handle_balanco docBalancoTwelve ("C") none = Except.ok (w, errs)
      ∧ (w.filter (fun o => o.is_currency)).length + errs.length = balanco_mapping.length)
    ∧ (handle_balanco docBalancoTwelve ("C") none).toOption.map
        (fun r => ((r.1.filter (fun o => o.is_currency)).length, r.2.length)) = some (12, 3) :=
  ⟨C7_balanco_failures_recorded_and_continue docBalancoTwelve ("C") none (by decide),
   by decide⟩

/-- Claim C9 witness. -/
theorem C9_no_sections_witness :
    extract_section_types docNoSections = ⟨false, false⟩
    ∧ process_balance_analysis_pdf docNoSections ("B") ("B") = Except.ok ⟨[], [], true⟩ :=
  C9_no_sections_no_mappers docNoSections ("B") ("B") (by decide)

end BalanceAnalysis
